import Mathlib

/-!
Verification of the path-confinement and session-authorization layer of the
`simple_file_server` repository, shallowly embedded in Lean 4.

Conventions of the embedding:
* Time is a `Nat` counting nanoseconds since the Unix epoch (`time.Now().UnixNano()`).
* The session map `sessions : map[string]UserSession` is a function
  `String → Option UserSession`; map insert / delete are explicit updates.
* The filesystem is a function from absolute path strings to `Option FNode`;
  `os.Stat` is a lookup, a `none` result is a stat error.
* Go's `filepath.Join` (Unix separators) is modelled by `goJoin`, built on a
  faithful model `goClean` of Go's lexical `path.Clean`.
* Handlers are pure functions from the request data and the ambient state to a
  response value and the updated state.
-/

/-- A node of the modelled filesystem: a regular file with its byte content, or
a directory. -/
inductive FNode where
  | file (content : List Nat)
  | dir
deriving DecidableEq

/-- The filesystem: absolute path strings to nodes; `none` means `os.Stat` fails. -/
def FS : Type := String → Option FNode

/-- Split a character list on `/`, like `String.splitOn "/"` (an empty input
yields one empty segment). Defined over `List Char` so it reduces in the kernel. -/
def splitSegs : List Char → List (List Char)
  | [] => [[]]
  | c :: cs =>
      let r := splitSegs cs
      if c = '/' then [] :: r
      else match r with
        | s :: rest => (c :: s) :: rest
        | [] => [[c]]

/-- Rejoin segments with `/` separators. -/
def joinSegs : List (List Char) → List Char
  | [] => []
  | [s] => s
  | s :: rest => s ++ '/' :: joinSegs rest

/-- Segment-wise core of Go's `path.Clean`: processes the slash-split segments
left to right, dropping empty and `.` segments, resolving `..` against the
accumulated output (a `..` at the top of a rooted path is dropped, and kept in
a relative path). `acc` holds the output segments in reverse. -/
def cleanSegsAux (rooted : Bool) (acc : List (List Char)) :
    List (List Char) → List (List Char)
  | [] => acc.reverse
  | seg :: rest =>
      if seg = [] ∨ seg = ['.'] then cleanSegsAux rooted acc rest
      else if seg = ['.', '.'] then
        match acc with
        | [] => if rooted then cleanSegsAux rooted [] rest
                else cleanSegsAux rooted [['.', '.']] rest
        | top :: acc' =>
            if top = ['.', '.'] then cleanSegsAux rooted (['.', '.'] :: acc) rest
            else cleanSegsAux rooted acc' rest
      else cleanSegsAux rooted (seg :: acc) rest

/-- Model of Go's `path.Clean` (equivalently `filepath.Clean` on Unix): purely
lexical normalization of `.`, `..`, and repeated separators. -/
def goClean (s : String) : String :=
  let cs := s.data
  let rooted : Bool := match cs with
    | '/' :: _ => true
    | _ => false
  let segs := cleanSegsAux rooted [] (splitSegs cs)
  if rooted then
    if segs.isEmpty then "/" else String.mk ('/' :: joinSegs segs)
  else
    if segs.isEmpty then "." else String.mk (joinSegs segs)

/-- Model of Go's `filepath.Join(a, b)` on Unix: concatenate the non-empty
elements with a separator, then `Clean` the result. This is the only
path-resolution step the handlers perform (`filepath.Join(baseDir, item)`). -/
def goJoin (a b : String) : String :=
  if a = "" then (if b = "" then "" else goClean b)
  else if b = "" then goClean a
  else goClean (a ++ "/" ++ b)

/-- `UserSession` from `pkg/auth/auth.go`: the authenticated username and the
absolute expiry instant. -/
structure UserSession where
  Username : String
  Expires : Nat
deriving DecidableEq

/-- The global `sessions` map: token to session, `none` when absent. -/
def SessionStore : Type := String → Option UserSession

/-- The empty session map (state at process start). -/
def emptyStore : SessionStore := fun _ => none

/-- Go map assignment `sessions[token] = u`. -/
def storeInsert (s : SessionStore) (token : String) (u : UserSession) : SessionStore :=
  fun k => if k = token then some u else s k

/-- Go `delete(sessions, token)`. -/
def storeDelete (s : SessionStore) (token : String) : SessionStore :=
  fun k => if k = token then none else s k

/-- `sessionDuration = time.Hour * 24` in nanoseconds. -/
def sessionDuration : Nat := 24 * 60 * 60 * 1000000000

/-- `GenerateSessionToken` from `pkg/auth/auth.go`:
`fmt.Sprintf("%d", time.Now().UnixNano())` — the decimal rendering of the
current nanosecond timestamp. -/
def GenerateSessionToken (nowNano : Nat) : String := toString nowNano

/-- `IsValidSessionToken` from `pkg/auth/auth.go`: look the token up; absent is
invalid; present with `Expires.Before(now)` (strict `<`) deletes the entry and
is invalid; otherwise valid. Returns the verdict and the possibly-purged store. -/
def IsValidSessionToken (s : SessionStore) (now : Nat) (token : String) :
    Bool × SessionStore :=
  match s token with
  | none => (false, s)
  | some session =>
      if session.Expires < now then (false, storeDelete s token)
      else (true, s)

/-- Decision of the auth middleware: redirect to the login route, or forward
to the wrapped handler carrying the resolved username (the `X-User` header). -/
inductive GateDecision where
  | redirectLogin
  | forward (user : String)
deriving DecidableEq

/-- `AuthMiddlewareForActions` from `pkg/auth/auth.go`, as a function of the
request's cookie value, method and URL path, and of the session store. An
absent cookie short-circuits (Go's `||`), so the store is untouched; an invalid
token redirects with the possibly-purged store; a valid token looks the session
up again for the username (a Go map read, zero value `""` if absent) and then
branches on method/path — both arms call `next.ServeHTTP(w, r)`. -/
def AuthMiddlewareForActions (s : SessionStore) (now : Nat)
    (cookie : Option String) (method urlPath : String) :
    GateDecision × SessionStore :=
  match cookie with
  | none => (.redirectLogin, s)
  | some tok =>
      let res := IsValidSessionToken s now tok
      if res.1 then
        let user := match res.2 tok with
          | some session => session.Username
          | none => ""
        if method = "POST" ∧ (urlPath.startsWith "/upload" ∨
            urlPath.startsWith "/delete" ∨ urlPath.startsWith "/create-folder") then
          (.forward user, res.2)
        else
          (.forward user, res.2)
      else (.redirectLogin, res.2)

/-- The middleware as the spec describes it: after validation succeeds, forward
unconditionally, with no branching on method or path. Written from the spec's
words to compare against `AuthMiddlewareForActions`. -/
def authGateUnconditional (s : SessionStore) (now : Nat)
    (cookie : Option String) : GateDecision × SessionStore :=
  match cookie with
  | none => (.redirectLogin, s)
  | some tok =>
      let res := IsValidSessionToken s now tok
      if res.1 then
        let user := match res.2 tok with
          | some session => session.Username
          | none => ""
        (.forward user, res.2)
      else (.redirectLogin, res.2)

/-- Outcome of a request routed through the auth middleware: a navigational
redirect produced by the middleware, or the wrapped handler's own response. -/
inductive ActionResp (α : Type) where
  | redirect (loc : String)
  | handled (r : α)

/-- A protected route as wired in `main`: `auth.AuthMiddlewareForActions`
wrapping a handler. The handler consumes the resolved username and the
filesystem and produces its response and the updated filesystem; it runs only
when the middleware forwards. -/
def guardedAction {α : Type} (s : SessionStore) (now : Nat)
    (cookie : Option String) (method urlPath : String)
    (handler : String → FS → α × FS) (fs : FS) :
    ActionResp α × SessionStore × FS :=
  match AuthMiddlewareForActions s now cookie method urlPath with
  | (.redirectLogin, s') => (.redirect "/login", s', fs)
  | (.forward user, s') =>
      let r := handler user fs
      (.handled r.1, s', r.2)

/-- Response of `LoginHandler`. -/
inductive LoginResp where
  | renderForm (err : Option String)
  | redirect (loc : String)
  | methodNotAllowed
deriving DecidableEq

/-- `LoginHandler` from `pkg/auth/auth.go`. `authenticate` is the opaque PAM
credential check (`PamAuthenticate`), `true` meaning success. On success a
token is generated from the current time, the session is stored with
`expiresAt = now + sessionDuration`, and the client is redirected to `/`;
on failure the login form is re-rendered with the fixed message. -/
def LoginHandler (authenticate : String → String → Bool) (method : String)
    (username password : String) (now : Nat) (s : SessionStore) :
    LoginResp × SessionStore :=
  if method = "GET" then (.renderForm none, s)
  else if method = "POST" then
    if authenticate username password then
      let sessionToken := GenerateSessionToken now
      (.redirect "/",
       storeInsert s sessionToken ⟨username, now + sessionDuration⟩)
    else (.renderForm (some "Authentication failed. Please try again."), s)
  else (.methodNotAllowed, s)

/-- `LogoutHandler` from `pkg/auth/auth.go`: if the session cookie is present,
delete its token from the store; redirect to the referer, or `/` when the
referer is empty or `/logout`. Returns the redirect target and the store. -/
def LogoutHandler (s : SessionStore) (cookie : Option String)
    (referer : String) : String × SessionStore :=
  let s' := match cookie with
    | none => s
    | some tok => storeDelete s tok
  let target := if referer = "" ∨ referer = "/logout" then "/" else referer
  (target, s')

/-- One member of the ZIP archive: its header name (`header.Name = relPath`),
its compression method (`header.Method`), and the copied bytes. -/
structure ZipEntry where
  name : String
  method : Nat
  content : List Nat
deriving DecidableEq

/-- Go's `zip.Deflate` constant. -/
def zipDeflate : Nat := 8

/-- Response of `downloadHandler`. -/
inductive DownloadResp where
  | badRequest (msg : String)
  | serveFile (path : String)
  | zip (entries : List ZipEntry)
deriving DecidableEq

/-- The stat-and-filter loop of `downloadHandler`: keep an item exactly when
`os.Stat(filepath.Join(baseDir, item))` succeeds and reports a non-directory;
a stat error is logged and the item skipped (`continue`). -/
def isServableFile (fs : FS) (p : String) : Bool :=
  match fs p with
  | some (FNode.file _) => true
  | _ => false

/-- The `files` list built by `downloadHandler`'s loop, in selection order. -/
def filteredItems (fs : FS) (baseDir : String) (items : List String) :
    List String :=
  items.filter (fun item => isServableFile fs (goJoin baseDir item))

/-- `addFileToZip` from `main.go`: open the full path (an open failure is
returned as an error, which the caller merely logs — no entry is produced);
a directory is skipped; otherwise a header with `Name = relPath` and
`Method = zip.Deflate` is created and the bytes copied. -/
def addFileToZip (fs : FS) (fullPath relPath : String) : Option ZipEntry :=
  match fs fullPath with
  | none => none
  | some FNode.dir => none
  | some (FNode.file content) => some ⟨relPath, zipDeflate, content⟩

/-- `downloadHandler` from `main.go`: reject an empty `items` form list with a
400; stat-filter the items; an empty filtered list is the same 400; a single
survivor is served raw via `http.ServeFile`; two or more produce a ZIP stream
of `addFileToZip` results in selection order. -/
def downloadHandler (fs : FS) (baseDir : String) (items : List String) :
    DownloadResp :=
  if items.length = 0 then .badRequest "No files selected for download"
  else
    let files := filteredItems fs baseDir items
    if files.length = 0 then .badRequest "No files selected for download"
    else if files.length = 1 then .serveFile (goJoin baseDir files.headI)
    else .zip (files.filterMap (fun f => addFileToZip fs (goJoin baseDir f) f))

/-- The bytes of the file at `p`, `[]` when `p` is absent or a directory. -/
def fileContent (fs : FS) (p : String) : List Nat :=
  match fs p with
  | some (FNode.file c) => c
  | _ => []

/-- Response of `deleteHandler`. -/
inductive DeleteResp where
  | badRequest (msg : String)
  | serverError (msg : String)
  | redirect (loc : String)
deriving DecidableEq

/-- The deletion loop of `deleteHandler`: for each item in order, call
`os.RemoveAll(filepath.Join(baseDir, item))` (`removeOk` abstracts the
filesystem's success or failure); on the first failure respond with a 500 and
return, abandoning the rest. Returns the list of paths actually passed to
`RemoveAll`, in order, and whether the whole loop succeeded. -/
def deleteLoop (baseDir : String) (removeOk : String → Bool) :
    List String → List String × Bool
  | [] => ([], true)
  | item :: rest =>
      let p := goJoin baseDir item
      if removeOk p then
        let r := deleteLoop baseDir removeOk rest
        (p :: r.1, r.2)
      else ([p], false)

/-- `deleteHandler` from `main.go`: an empty `items` list is a 400; otherwise
run the deletion loop; if it completed, redirect to `currentPath`, else the
500 from the first failure. The returned list is the audit trail of `RemoveAll`
calls. -/
def deleteHandler (baseDir : String) (removeOk : String → Bool)
    (items : List String) (currentPath : String) :
    DeleteResp × List String :=
  if items.length = 0 then (.badRequest "No items selected for deletion", [])
  else
    let r := deleteLoop baseDir removeOk items
    if r.2 then (.redirect currentPath, r.1)
    else (.serverError "Error deleting item", r.1)

/-- The empty filesystem. -/
def emptyFS : FS := fun _ => none

/-- Concrete store used in witnesses: one session `"tok"` for `"alice"`
expiring at instant 100. -/
def exStore : SessionStore :=
  fun k => if k = "tok" then some ⟨"alice", 100⟩ else none

/-- Concrete filesystem used in witnesses: files `a.txt` and `b.txt` under the
root `/base`; everything else (notably `missing.txt`) is absent. -/
def exFS : FS := fun p =>
  if p = "/base/a.txt" then some (FNode.file [104, 105])
  else if p = "/base/b.txt" then some (FNode.file [119])
  else none

/-- Concrete filesystem with a file `/secret` lying outside the root `/base`. -/
def exFSsecret : FS := fun p =>
  if p = "/secret" then some (FNode.file [42]) else none

/-- Concrete `RemoveAll` behavior: removal fails exactly at `/b/x2`. -/
def exRemoveOk : String → Bool := fun p => if p = "/b/x2" then false else true

-- Sanity checks of the path model against Go's documented Clean behavior.
example : goClean "/base/../secret" = "/secret" := by decide
example : goClean "/base/a//b/./c" = "/base/a/b/c" := by decide
example : goClean "" = "." := by decide
example : goJoin "/base" "" = "/base" := by decide
example : goJoin "/base" "a/../b" = "/base/b" := by decide
example : goJoin "/base" "../secret" = "/secret" := by decide

/-! ## Theorems -/

/-- C7: in `AuthMiddlewareForActions`, once the session is confirmed valid, the
branching on method and path (POST to `/upload`, `/delete`, `/create-folder`
versus anything else) is behaviourally identical: for every request with a
valid session both arms forward unchanged, so the middleware equals the gate
that forwards unconditionally after validation. -/
theorem c7_gate_branches_identical (s : SessionStore) (now : Nat)
    (cookie : Option String) (method urlPath : String) :
    AuthMiddlewareForActions s now cookie method urlPath =
      authGateUnconditional s now cookie := by
  cases cookie with
  | none => rfl
  | some tok => simp [AuthMiddlewareForActions, authGateUnconditional]

/-- C10: validating a token `t` (including the lazy purge of an expired `t`)
and logging out with cookie `t` change at most the store entry keyed by `t`:
every entry under a different token `t'` — its username and expiry included —
is left exactly as it was. -/
theorem c10_frame (s : SessionStore) (now : Nat) (t t' : String)
    (referer : String) (h : t' ≠ t) :
    (IsValidSessionToken s now t).2 t' = s t' ∧
    (LogoutHandler s (some t) referer).2 t' = s t' ∧
    (LogoutHandler s none referer).2 t' = s t' := by
  refine ⟨?_, ?_, rfl⟩
  · unfold IsValidSessionToken
    cases hs : s t with
    | none => rfl
    | some u =>
        by_cases hlt : u.Expires < now
        · simp [hlt, storeDelete, h]
        · simp [hlt]
  · simp [LogoutHandler, storeDelete, h]

/-- Witness for C10 at a concrete store and tokens. -/
theorem c10_frame_witness :
    (IsValidSessionToken exStore 200 "tok").2 "other" = exStore "other" ∧
    (LogoutHandler exStore (some "tok") "/x").2 "other" = exStore "other" ∧
    (LogoutHandler exStore none "/x").2 "other" = exStore "other" :=
  c10_frame exStore 200 "tok" "other" "/x" (by decide)

/-- C2: a request to a protected mutating route whose session cookie is absent
or invalid is answered with a navigational redirect to `/login`; the result is
the same for every wrapped handler (so the handler is never invoked) and the
filesystem is returned unchanged (no file written, nothing deleted, no folder
created). -/
theorem c2_unauthenticated_redirect {α : Type} (s : SessionStore) (now : Nat)
    (cookie : Option String) (method urlPath : String)
    (handler : String → FS → α × FS) (fs : FS)
    (h : cookie = none ∨ ∃ tok, cookie = some tok ∧
         (IsValidSessionToken s now tok).1 = false) :
    guardedAction s now cookie method urlPath handler fs =
      (.redirect "/login",
       (AuthMiddlewareForActions s now cookie method urlPath).2, fs) := by
  rcases h with h | ⟨tok, hc, hinv⟩
  · subst h; rfl
  · subst hc
    simp [guardedAction, AuthMiddlewareForActions, hinv]

/-- Witness for C2: a `POST /upload` with an unknown session token is
redirected to `/login` and the filesystem is untouched. -/
theorem c2_unauthenticated_redirect_witness :
    guardedAction (α := Unit) emptyStore 0 (some "bad") "POST" "/upload"
        (fun _ fs => ((), fs)) emptyFS =
      (.redirect "/login",
       (AuthMiddlewareForActions emptyStore 0 (some "bad") "POST" "/upload").2,
       emptyFS) :=
  c2_unauthenticated_redirect emptyStore 0 (some "bad") "POST" "/upload"
    (fun _ fs => ((), fs)) emptyFS (Or.inr ⟨"bad", rfl, by decide⟩)

/-- C9: a failed login (credential check rejected) re-renders the login form
with the one fixed generic message, independent of the submitted username,
password, time, and store: any two failed attempts produce identical
responses, so the response never reveals whether the username exists; the
session store is also left unchanged. -/
theorem c9_failed_login_uniform (authenticate : String → String → Bool)
    (u1 p1 u2 p2 : String) (now1 now2 : Nat) (s1 s2 : SessionStore)
    (h1 : authenticate u1 p1 = false) (h2 : authenticate u2 p2 = false) :
    (LoginHandler authenticate "POST" u1 p1 now1 s1).1 =
      (LoginHandler authenticate "POST" u2 p2 now2 s2).1 ∧
    (LoginHandler authenticate "POST" u1 p1 now1 s1).1 =
      .renderForm (some "Authentication failed. Please try again.") ∧
    (LoginHandler authenticate "POST" u1 p1 now1 s1).2 = s1 := by
  simp [LoginHandler, h1, h2]

/-- Witness for C9: an existing-looking and a nonexistent username fail
identically. -/
theorem c9_failed_login_uniform_witness :
    (LoginHandler (fun _ _ => false) "POST" "root" "pw" 0 emptyStore).1 =
      (LoginHandler (fun _ _ => false) "POST" "nosuchuser" "pw" 7 emptyStore).1 ∧
    (LoginHandler (fun _ _ => false) "POST" "root" "pw" 0 emptyStore).1 =
      .renderForm (some "Authentication failed. Please try again.") ∧
    (LoginHandler (fun _ _ => false) "POST" "root" "pw" 0 emptyStore).2 =
      emptyStore :=
  c9_failed_login_uniform (fun _ _ => false) "root" "pw" "nosuchuser" "pw" 0 7
    emptyStore emptyStore rfl rfl

/-- C3 counterexample: the claim says a validation attempted at `expiresAt`
fails, but `IsValidSessionToken` uses Go's strict `Expires.Before(now)`, so a
token whose expiry is exactly `now` is reported valid. Here `"tok"` expires at
100 and validation at time 100 succeeds. -/
theorem c3_counterexample :
    (IsValidSessionToken exStore 100 "tok").1 = true := by decide

/-- C3 amended: validation succeeds exactly when the token is present and the
current time is at or before (`≤`) its `expiresAt`; a validation strictly after
`expiresAt` fails, deletes the token from the store, and a repeated validation
of the same token also fails with the token still absent. -/
theorem c3_session_expiry (s : SessionStore) (now : Nat) (t : String) :
    ((IsValidSessionToken s now t).1 = true ↔
      ∃ u, s t = some u ∧ now ≤ u.Expires) ∧
    (∀ u, s t = some u → u.Expires < now →
      (IsValidSessionToken s now t).1 = false ∧
      (IsValidSessionToken s now t).2 t = none ∧
      (IsValidSessionToken (IsValidSessionToken s now t).2 now t).1 = false ∧
      (IsValidSessionToken (IsValidSessionToken s now t).2 now t).2 t = none) := by
  constructor
  · unfold IsValidSessionToken
    cases hs : s t with
    | none => simp
    | some u =>
        by_cases hlt : u.Expires < now <;> (simp [hlt]; try omega)
  · intro u hu hlt
    have h1 : IsValidSessionToken s now t = (false, storeDelete s t) := by
      unfold IsValidSessionToken
      rw [hu]
      simp [hlt]
    refine ⟨by rw [h1], ?_, ?_, ?_⟩
    · rw [h1]; simp [storeDelete]
    · rw [h1]; simp [IsValidSessionToken, storeDelete]
    · rw [h1]; simp [IsValidSessionToken, storeDelete]

/-- Witness for the amended C3: `"tok"` expires at 100; validation at 99
(one unit before expiry) succeeds, validation at 101 (one unit after) fails,
and the token is afterwards absent, so a re-check fails too. -/
theorem c3_session_expiry_witness :
    (IsValidSessionToken exStore 99 "tok").1 = true ∧
    (IsValidSessionToken exStore 101 "tok").1 = false ∧
    (IsValidSessionToken exStore 101 "tok").2 "tok" = none ∧
    (IsValidSessionToken (IsValidSessionToken exStore 101 "tok").2 101 "tok").1
      = false :=
  ⟨(c3_session_expiry exStore 99 "tok").1.mpr
      ⟨⟨"alice", 100⟩, by decide, by decide⟩,
   ((c3_session_expiry exStore 101 "tok").2 ⟨"alice", 100⟩ (by decide)
      (by decide)).1,
   ((c3_session_expiry exStore 101 "tok").2 ⟨"alice", 100⟩ (by decide)
      (by decide)).2.1,
   ((c3_session_expiry exStore 101 "tok").2 ⟨"alice", 100⟩ (by decide)
      (by decide)).2.2.1⟩

/-- C4 counterexample: the claim says session creation never overwrites a live
session. But `GenerateSessionToken` is just the decimal nanosecond timestamp,
so two successful logins at the same instant 100 produce the same token
`"100"`: after the first, the store maps `"100"` to alice's session (live,
since `100 < 100 + sessionDuration`); after the second, the same key holds
bob's session — alice's live session was replaced. -/
theorem c4_counterexample :
    (LoginHandler (fun _ _ => true) "POST" "alice" "pw1" 100 emptyStore).2 "100"
      = some ⟨"alice", 100 + sessionDuration⟩ ∧
    (100 : Nat) < 100 + sessionDuration ∧
    (LoginHandler (fun _ _ => true) "POST" "bob" "pw2" 100
        (LoginHandler (fun _ _ => true) "POST" "alice" "pw1" 100 emptyStore).2).2
      "100" = some ⟨"bob", 100 + sessionDuration⟩ := by
  refine ⟨?_, by decide, ?_⟩ <;> decide

/-- C4 amended: a successful login stores the new session under the token
`GenerateSessionToken now` — the decimal rendering of the creation timestamp —
with expiry `now + sessionDuration`, and that store insert replaces whatever
entry (including a live session created at the same instant) the store held
under that token; uniqueness is therefore only per-timestamp, not guaranteed. -/
theorem c4_login_token (authenticate : String → String → Bool)
    (u p : String) (now : Nat) (s : SessionStore)
    (h : authenticate u p = true) :
    GenerateSessionToken now = toString now ∧
    (LoginHandler authenticate "POST" u p now s).2 =
      storeInsert s (GenerateSessionToken now) ⟨u, now + sessionDuration⟩ ∧
    (LoginHandler authenticate "POST" u p now s).2 (GenerateSessionToken now) =
      some ⟨u, now + sessionDuration⟩ := by
  refine ⟨rfl, ?_, ?_⟩ <;> simp [LoginHandler, h, storeInsert]

/-- Witness for the amended C4: bob's login at instant 100 stores his session
under token `"100"`, replacing alice's entry at that key. -/
theorem c4_login_token_witness :
    GenerateSessionToken 100 = toString 100 ∧
    (LoginHandler (fun _ _ => true) "POST" "bob" "pw2" 100 exStore).2 =
      storeInsert exStore (GenerateSessionToken 100)
        ⟨"bob", 100 + sessionDuration⟩ ∧
    (LoginHandler (fun _ _ => true) "POST" "bob" "pw2" 100 exStore).2
        (GenerateSessionToken 100) = some ⟨"bob", 100 + sessionDuration⟩ :=
  c4_login_token (fun _ _ => true) "bob" "pw2" 100 exStore rfl

/-- C1: the code performs no path-escape rejection. `filepath.Join` merely
normalizes lexically, so the download item `"../secret"` under root `"/base"`
resolves to `"/secret"` — not even a string-level descendant of the root — and
`downloadHandler` stats that path and serves the file it finds there: the
traversal reaches the filesystem instead of being rejected with `PathEscape`. -/
theorem c1_traversal_escape :
    goJoin "/base" "../secret" = "/secret" ∧
    List.isPrefixOf "/base".data "/secret".data = false ∧
    downloadHandler exFSsecret "/base" ["../secret"] = .serveFile "/secret" := by
  refine ⟨by decide, by decide, ?_⟩
  decide

/-- Every member of the stat-filter survives `addFileToZip`: the entry is named
by the virtual path, compressed with deflate, and carries the file's bytes. -/
theorem addFileToZip_of_mem (fs : FS) (baseDir : String) (items : List String)
    (x : String) (hx : x ∈ filteredItems fs baseDir items) :
    addFileToZip fs (goJoin baseDir x) x =
      some ⟨x, zipDeflate, fileContent fs (goJoin baseDir x)⟩ := by
  have hs : isServableFile fs (goJoin baseDir x) = true :=
    (List.mem_filter.mp hx).2
  cases hf : fs (goJoin baseDir x) with
  | none => simp [isServableFile, hf] at hs
  | some n =>
      cases n with
      | file c => simp [addFileToZip, fileContent, hf]
      | dir => simp [isServableFile, hf] at hs

/-- `filterMap` is a plain `map` when the function succeeds on every member. -/
theorem filterMap_congr_map {α β : Type} (g : α → Option β) (h' : α → β)
    (l : List α) (hall : ∀ x ∈ l, g x = some (h' x)) :
    l.filterMap g = l.map h' := by
  induction l with
  | nil => rfl
  | cons a t ih =>
      rw [List.filterMap_cons, List.map_cons, hall a (List.mem_cons_self a t),
        ih (fun x hx => hall x (List.mem_cons_of_mem a hx))]

/-- With at least two survivors, `downloadHandler` produces the ZIP of exactly
one entry per survivor, in selection order. -/
theorem downloadHandler_zip_eq (fs : FS) (baseDir : String)
    (items : List String) (h : 2 ≤ (filteredItems fs baseDir items).length) :
    downloadHandler fs baseDir items =
      .zip ((filteredItems fs baseDir items).map (fun it =>
        ⟨it, zipDeflate, fileContent fs (goJoin baseDir it)⟩)) := by
  have hitems : ¬ items.length = 0 := by
    intro h0
    rw [List.length_eq_zero.mp h0] at h
    simp [filteredItems] at h
  have hf0 : ¬ (filteredItems fs baseDir items).length = 0 := by omega
  have hf1 : ¬ (filteredItems fs baseDir items).length = 1 := by omega
  simp only [downloadHandler]
  rw [if_neg hitems, if_neg hf0, if_neg hf1,
    filterMap_congr_map _ _ _
      (fun x hx => addFileToZip_of_mem fs baseDir items x hx)]

/-- C5: whenever the filtered selection keeps at least two files, the ZIP holds
exactly one entry per selected path that exists and is not a directory, in the
order of the original selection; each entry is named by the virtual path (the
`items` value, not the server's absolute path) and uses the deflate method. -/
theorem c5_zip_entry_per_file (fs : FS) (baseDir : String)
    (items : List String)
    (h : 2 ≤ (filteredItems fs baseDir items).length) :
    downloadHandler fs baseDir items =
      .zip ((filteredItems fs baseDir items).map (fun it =>
        ⟨it, zipDeflate, fileContent fs (goJoin baseDir it)⟩)) :=
  downloadHandler_zip_eq fs baseDir items h

/-- Witness for C5, the spec's own example: selection
`["a.txt", "missing.txt", "b.txt"]` with `missing.txt` absent yields exactly
the entries `a.txt` then `b.txt` and the operation succeeds. -/
theorem c5_zip_entry_per_file_witness :
    2 ≤ (filteredItems exFS "/base" ["a.txt", "missing.txt", "b.txt"]).length ∧
    downloadHandler exFS "/base" ["a.txt", "missing.txt", "b.txt"] =
      .zip [⟨"a.txt", zipDeflate, [104, 105]⟩, ⟨"b.txt", zipDeflate, [119]⟩] :=
  ⟨by decide,
   (c5_zip_entry_per_file exFS "/base" ["a.txt", "missing.txt", "b.txt"]
      (by decide)).trans (by decide)⟩

/-- C6: the download handler is a three-way case split on the filtered
selection: empty — the `NoSelection` client error (no container opened);
exactly one file — that file streamed raw with no container; two or more —
a ZIP container. -/
theorem c6_download_case_split (fs : FS) (baseDir : String)
    (items : List String) :
    ((filteredItems fs baseDir items).length = 0 →
      downloadHandler fs baseDir items =
        .badRequest "No files selected for download") ∧
    (∀ f, filteredItems fs baseDir items = [f] →
      downloadHandler fs baseDir items = .serveFile (goJoin baseDir f)) ∧
    (2 ≤ (filteredItems fs baseDir items).length →
      ∃ entries, downloadHandler fs baseDir items = .zip entries) := by
  refine ⟨?_, ?_, ?_⟩
  · intro h0
    by_cases hi : items.length = 0
    · simp only [downloadHandler]; rw [if_pos hi]
    · simp only [downloadHandler]; rw [if_neg hi, if_pos h0]
  · intro f hf
    have hi : ¬ items.length = 0 := by
      intro h0
      rw [List.length_eq_zero.mp h0] at hf
      simp [filteredItems] at hf
    simp only [downloadHandler]
    rw [if_neg hi, hf]
    simp
  · intro h2
    exact ⟨_, downloadHandler_zip_eq fs baseDir items h2⟩

/-- Witness for C6: the three branches at concrete selections over `exFS`. -/
theorem c6_download_case_split_witness :
    downloadHandler exFS "/base" ["missing.txt"] =
      .badRequest "No files selected for download" ∧
    downloadHandler exFS "/base" ["a.txt"] = .serveFile "/base/a.txt" ∧
    ∃ entries, downloadHandler exFS "/base" ["a.txt", "b.txt"] = .zip entries :=
  ⟨(c6_download_case_split exFS "/base" ["missing.txt"]).1 (by decide),
   ((c6_download_case_split exFS "/base" ["a.txt"]).2.1 "a.txt"
      (by decide)).trans (by decide),
   (c6_download_case_split exFS "/base" ["a.txt", "b.txt"]).2.2 (by decide)⟩

/-- If every member satisfies `p`, `takeWhile p` keeps everything and
`dropWhile p` drops everything. -/
theorem takeWhile_all {α : Type} (p : α → Bool) (l : List α)
    (h : l.all p = true) : l.takeWhile p = l ∧ l.dropWhile p = [] := by
  induction l with
  | nil => exact ⟨rfl, rfl⟩
  | cons a t ih =>
      simp only [List.all_cons, Bool.and_eq_true] at h
      simp [List.takeWhile_cons, List.dropWhile_cons, h.1, ih h.2]

/-- The deletion loop attempts the items in order up to and including the
first failing one, and succeeds exactly when every removal succeeds. -/
theorem deleteLoop_eq (baseDir : String) (removeOk : String → Bool)
    (items : List String) :
    deleteLoop baseDir removeOk items =
      ((items.takeWhile (fun i => removeOk (goJoin baseDir i)) ++
        (items.dropWhile (fun i => removeOk (goJoin baseDir i))).take 1).map
          (goJoin baseDir),
       items.all (fun i => removeOk (goJoin baseDir i))) := by
  induction items with
  | nil => rfl
  | cons a t ih =>
      cases hr : removeOk (goJoin baseDir a) with
      | true => simp [deleteLoop, hr, ih]
      | false => simp [deleteLoop, hr]

/-- C8 counterexample: the claim says every item of the set is attempted
before the outcome is decided. With removal failing at `/b/x2`, the handler
responds with the server error after attempting only `/b/x1` and `/b/x2`;
`/b/x3` is never passed to `RemoveAll` — the batch is aborted mid-way. -/
theorem c8_counterexample :
    deleteHandler "/b" exRemoveOk ["x1", "x2", "x3"] "/b" =
      (.serverError "Error deleting item", ["/b/x1", "/b/x2"]) ∧
    (deleteHandler "/b" exRemoveOk ["x1", "x2", "x3"] "/b").2.contains "/b/x3"
      = false := by decide

/-- C8 amended: deletion proceeds in selection order and stops at the first
item whose removal fails: if every removal succeeds, all items are attempted
and the handler redirects; otherwise it attempts exactly the successful
leading run plus the first failing item, responds with the server error, and
the remaining items are never attempted. -/
theorem c8_delete_aborts_on_failure (baseDir : String)
    (removeOk : String → Bool) (items : List String) (currentPath : String)
    (h : items ≠ []) :
    (items.all (fun i => removeOk (goJoin baseDir i)) = true →
      deleteHandler baseDir removeOk items currentPath =
        (.redirect currentPath, items.map (goJoin baseDir))) ∧
    (items.all (fun i => removeOk (goJoin baseDir i)) = false →
      deleteHandler baseDir removeOk items currentPath =
        (.serverError "Error deleting item",
         (items.takeWhile (fun i => removeOk (goJoin baseDir i)) ++
          (items.dropWhile (fun i => removeOk (goJoin baseDir i))).take 1).map
            (goJoin baseDir))) := by
  have hlen : ¬ items.length = 0 := by
    simpa [List.length_eq_zero] using h
  constructor
  · intro hall
    obtain ⟨ht, hd⟩ := takeWhile_all (fun i => removeOk (goJoin baseDir i))
      items hall
    simp only [deleteHandler]
    rw [if_neg hlen, deleteLoop_eq, ht, hd]
    simp [hall]
  · intro hfail
    simp only [deleteHandler]
    rw [if_neg hlen, deleteLoop_eq, hfail]
    simp

/-- Witness for the amended C8: a fully successful batch redirects having
attempted everything; a batch failing at `/b/x2` stops there. -/
theorem c8_delete_aborts_on_failure_witness :
    deleteHandler "/b" (fun _ => true) ["x1", "x2"] "/cur" =
      (.redirect "/cur", ["/b/x1", "/b/x2"]) ∧
    deleteHandler "/b" exRemoveOk ["x1", "x2", "x3"] "/cur" =
      (.serverError "Error deleting item", ["/b/x1", "/b/x2"]) :=
  ⟨((c8_delete_aborts_on_failure "/b" (fun _ => true) ["x1", "x2"] "/cur"
      (by decide)).1 (by decide)).trans (by decide),
   ((c8_delete_aborts_on_failure "/b" exRemoveOk ["x1", "x2", "x3"] "/cur"
      (by decide)).2 (by decide)).trans (by decide)⟩
